import Mathlib

/-!
Shallow embedding of the points-economy core of the college-community API
(`app/routers/engagement.py`, `app/routers/rewards.py`, `app/routers/store.py`,
`app/services/reward_pool.py`, data model in `app/models/models.py`).

Tables are lists of rows; integer ids are `Nat`, point/stock amounts are `Int`
(the columns are SQL `Integer`s holding Python ints).  Audit-only string
columns (`description`, `reference_type`, timestamps) are omitted; every
column a claim talks about is kept.  Each endpoint/service function is a pure
function `DB → DB × Except ApiError α`: the returned `DB` is the state that is
durable after the call (SQLAlchemy `commit`/`rollback` folded in — on an
error raised before any commit the input `DB` is returned unchanged).
-/

namespace CollegeApi

/-- `PointTransaction.transaction_type` values used by the code. -/
inductive PtxType
  | EARNED
  | SPENT
  | REFUNDED
  | DEDUCTED
deriving DecidableEq

/-- `PoolTransaction.transaction_type` values used by the code. -/
inductive PoolTxType
  | CREDIT
  | DEBIT
deriving DecidableEq

/-- `Product.status` enum (`ProductStatus` in models.py). -/
inductive ProductStatus
  | ACTIVE
  | INACTIVE
  | OUT_OF_STOCK
deriving DecidableEq

/-- The columns of `users` that the core reads. -/
structure User where
  id : Nat
  college_id : Nat
deriving DecidableEq

/-- The columns of `posts` that the ignite engine reads. -/
structure Post where
  id : Nat
  author_id : Nat
  college_id : Nat
  ignite_count : Int
deriving DecidableEq

/-- `reward_points` row: the materialized per-user balance. -/
structure RewardPoint where
  user_id : Nat
  total_points : Int
deriving DecidableEq

/-- `point_transactions` row (append-only user ledger). -/
structure PointTransaction where
  user_id : Nat
  transaction_type : PtxType
  points : Int
  balance_after : Int
  college_id : Nat
deriving DecidableEq

/-- `rewards` row written by `give_reward` (peer reward record). -/
structure Reward where
  giver_id : Nat
  receiver_id : Nat
  points : Int
  college_id : Nat
deriving DecidableEq

/-- `post_ignites` row: its existence is the toggle state. -/
structure PostIgnite where
  post_id : Nat
  giver_id : Nat
  receiver_id : Nat
deriving DecidableEq

/-- `college_reward_pools` row. -/
structure CollegeRewardPool where
  college_id : Nat
  total_balance : Int
  reserved_balance : Int
  initial_allocation : Int
  lifetime_credits : Int
  lifetime_debits : Int
  low_balance_threshold : Int
deriving DecidableEq

/-- `available_balance` property: `total_balance - reserved_balance`. -/
def CollegeRewardPool.available_balance (p : CollegeRewardPool) : Int :=
  p.total_balance - p.reserved_balance

/-- `pool_transactions` row (append-only pool ledger). -/
structure PoolTransaction where
  college_id : Nat
  transaction_type : PoolTxType
  amount : Int
  balance_before : Int
  balance_after : Int
  beneficiary_user_id : Option Nat
deriving DecidableEq

/-- `products` row (store catalog). -/
structure Product where
  id : Nat
  name : String
  points_required : Int
  stock_quantity : Int
  max_quantity_per_user : Int
  status : ProductStatus
  college_id : Nat
deriving DecidableEq

/-- `carts` row (one per user, created lazily). -/
structure Cart where
  id : Nat
  user_id : Nat
  college_id : Nat
deriving DecidableEq

/-- `cart_items` row. -/
structure CartItem where
  cart_id : Nat
  product_id : Nat
  quantity : Int
deriving DecidableEq

/-- `orders` row (fields the core writes). -/
structure Order where
  id : Nat
  user_id : Nat
  total_points : Int
  total_items : Nat
  college_id : Nat
deriving DecidableEq

/-- `order_items` row with the frozen product snapshot. -/
structure OrderItem where
  order_id : Nat
  product_id : Nat
  quantity : Int
  points_per_item : Int
  total_points : Int
  product_name : String
deriving DecidableEq

/-- The whole persistent state the core touches. -/
structure DB where
  users : List User
  posts : List Post
  reward_points : List RewardPoint
  point_transactions : List PointTransaction
  rewards : List Reward
  ignites : List PostIgnite
  pools : List CollegeRewardPool
  pool_transactions : List PoolTransaction
  products : List Product
  carts : List Cart
  cart_items : List CartItem
  orders : List Order
  order_items : List OrderItem
deriving DecidableEq

/-- Typed rendering of the `HTTPException`s the core raises. -/
inductive ApiError
  | PostNotFound
  | SelfIgniteNotAllowed
  | InsufficientPoints
  | ReceiverNotFound
  | SelfRewardNotAllowed
  | InvalidPoints
  | CartNotFound
  | EmptyCart
  | ProductNotFound
  | ProductUnavailable
  | InsufficientStock
  | MaxQuantityPerUser
  | InsufficientPoolBalance
  | InternalError
deriving DecidableEq

/-- Decidable equality of call results. -/
instance exceptDecEq {ε α : Type} [DecidableEq ε] [DecidableEq α] :
    DecidableEq (Except ε α) := fun a b =>
  match a, b with
  | .ok x, .ok y =>
    if h : x = y then isTrue (congrArg Except.ok h)
    else isFalse (fun hc => h (Except.ok.inj hc))
  | .error x, .error y =>
    if h : x = y then isTrue (congrArg Except.error h)
    else isFalse (fun hc => h (Except.error.inj hc))
  | .ok _, .error _ => isFalse (fun hc => Except.noConfusion hc)
  | .error _, .ok _ => isFalse (fun hc => Except.noConfusion hc)

/-! ## Row lookup / update helpers (SQLAlchemy `query(...).first()` and
in-place mutation of the returned row). -/

/-- `db.query(RewardPoint).filter(user_id == uid).first()`, read as the
balance, with the get-or-create default `total_points = 0`. -/
def getPoints : List RewardPoint → Nat → Int
  | [], _ => 0
  | rp :: rest, uid => if rp.user_id = uid then rp.total_points else getPoints rest uid

/-- Whether a `reward_points` row exists for `uid`. -/
def hasPoints : List RewardPoint → Nat → Bool
  | [], _ => false
  | rp :: rest, uid => if rp.user_id = uid then true else hasPoints rest uid

/-- Write `v` into the first `reward_points` row of `uid`, creating the row
(`db.add(RewardPoint(...))`) when none exists. -/
def setPoints : List RewardPoint → Nat → Int → List RewardPoint
  | [], uid, v => [⟨uid, v⟩]
  | rp :: rest, uid, v =>
    if rp.user_id = uid then ⟨uid, v⟩ :: rest else rp :: setPoints rest uid v

/-- Running sum of a user's `PointTransaction.points` (the ledger total). -/
def txnSum : List PointTransaction → Nat → Int
  | [], _ => 0
  | t :: rest, uid => (if t.user_id = uid then t.points else 0) + txnSum rest uid

/-- `query(Post).filter(id == pid, college_id == cid).first()`. -/
def findPost : List Post → Nat → Nat → Option Post
  | [], _, _ => none
  | p :: rest, pid, cid =>
    if p.id = pid ∧ p.college_id = cid then some p else findPost rest pid cid

/-- `query(User).filter(id == uid, college_id == cid).first()`. -/
def findUser : List User → Nat → Nat → Option User
  | [], _, _ => none
  | u :: rest, uid, cid =>
    if u.id = uid ∧ u.college_id = cid then some u else findUser rest uid cid

/-- `query(PostIgnite).filter(post_id == pid, giver_id == gid).first()`. -/
def findIgnite : List PostIgnite → Nat → Nat → Option PostIgnite
  | [], _, _ => none
  | i :: rest, pid, gid =>
    if i.post_id = pid ∧ i.giver_id = gid then some i else findIgnite rest pid gid

/-- `db.delete(existing_ignite)`: remove the first matching row. -/
def removeIgnite : List PostIgnite → Nat → Nat → List PostIgnite
  | [], _, _ => []
  | i :: rest, pid, gid =>
    if i.post_id = pid ∧ i.giver_id = gid then rest else i :: removeIgnite rest pid gid

/-- `query(CollegeRewardPool).filter(college_id == cid).first()`. -/
def findPool : List CollegeRewardPool → Nat → Option CollegeRewardPool
  | [], _ => none
  | p :: rest, cid => if p.college_id = cid then some p else findPool rest cid

/-- Overwrite `total_balance` of the first pool row of `cid`. -/
def setPoolBalance : List CollegeRewardPool → Nat → Int → List CollegeRewardPool
  | [], _, _ => []
  | p :: rest, cid, v =>
    if p.college_id = cid then { p with total_balance := v } :: rest
    else p :: setPoolBalance rest cid v

/-- `query(Product).filter(id == pid).first()` (checkout's per-item query). -/
def findProduct : List Product → Nat → Option Product
  | [], _ => none
  | p :: rest, pid => if p.id = pid then some p else findProduct rest pid

/-- `product.stock_quantity -= q` on the first row with id `pid`. -/
def subStock : List Product → Nat → Int → List Product
  | [], _, _ => []
  | p :: rest, pid, q =>
    if p.id = pid then { p with stock_quantity := p.stock_quantity - q } :: rest
    else p :: subStock rest pid q

/-- `query(Product).filter(id, college_id, status == ACTIVE).first()`
(`add_to_cart`'s availability query). -/
def findActiveProduct : List Product → Nat → Nat → Option Product
  | [], _, _ => none
  | p :: rest, pid, cid =>
    if p.id = pid ∧ p.college_id = cid ∧ p.status = ProductStatus.ACTIVE then some p
    else findActiveProduct rest pid cid

/-- `query(Cart).filter(user_id == uid).first()`. -/
def findCart : List Cart → Nat → Option Cart
  | [], _ => none
  | c :: rest, uid => if c.user_id = uid then some c else findCart rest uid

/-- `query(CartItem).filter(cart_id == cid, product_id == pid).first()`. -/
def findCartItem : List CartItem → Nat → Nat → Option CartItem
  | [], _, _ => none
  | i :: rest, cid, pid =>
    if i.cart_id = cid ∧ i.product_id = pid then some i else findCartItem rest cid pid

/-- Overwrite the quantity of the first `(cid, pid)` cart item. -/
def setCartItemQty : List CartItem → Nat → Nat → Int → List CartItem
  | [], _, _, _ => []
  | i :: rest, cid, pid, q =>
    if i.cart_id = cid ∧ i.product_id = pid then { i with quantity := q } :: rest
    else i :: setCartItemQty rest cid pid q

/-- `query(CartItem).filter(cart_id == cid).all()`. -/
def itemsOfCart (items : List CartItem) (cid : Nat) : List CartItem :=
  items.filter (fun i => i.cart_id = cid)

/-- `query(CartItem).filter(cart_id == cid).delete()`. -/
def clearCart (items : List CartItem) (cid : Nat) : List CartItem :=
  items.filter (fun i => ¬ i.cart_id = cid)

/-- Fresh primary key for a lazily created cart. -/
def freshCartId (db : DB) : Nat :=
  db.carts.foldl (fun m c => max m c.id) 0 + 1

/-- Fresh primary key for an order. -/
def freshOrderId (db : DB) : Nat :=
  db.orders.foldl (fun m o => max m o.id) 0 + 1

/-! ## Operations -/

/-- Result of the ignite toggle endpoint (`IgniteToggleResponse`). -/
structure IgniteResult where
  action : String
  ignite_count : Int
  points_transferred : Int
deriving DecidableEq

/-- `POST /posts/{post_id}/ignite` (engagement.py `toggle_ignite`).  The post
row is never written: `ignite_count` is only read back after `db.refresh`. -/
def toggle_ignite (db : DB) (post_id : Nat) (cu : User) :
    DB × Except ApiError IgniteResult :=
  match findPost db.posts post_id cu.college_id with
  | none => (db, .error .PostNotFound)
  | some post =>
    if post.author_id = cu.id then (db, .error .SelfIgniteNotAllowed)
    else
      match findIgnite db.ignites post_id cu.id with
      | some _ =>
        -- un-ignite: refund giver, clamp author at 0, delete the row
        let userBal := getPoints db.reward_points cu.id
        let authorBal := getPoints db.reward_points post.author_id
        let newUserBal := userBal + 1
        let newAuthorBal := max 0 (authorBal - 1)
        let rps := setPoints (setPoints db.reward_points cu.id newUserBal)
          post.author_id newAuthorBal
        let txns := db.point_transactions ++
          [⟨cu.id, .REFUNDED, 1, newUserBal, cu.college_id⟩,
           ⟨post.author_id, .DEDUCTED, -1, newAuthorBal, cu.college_id⟩]
        let db' := { db with
          reward_points := rps
          point_transactions := txns
          ignites := removeIgnite db.ignites post_id cu.id }
        (db', .ok ⟨"removed", post.ignite_count, -1⟩)
      | none =>
        -- ignite: deduct giver, credit author, insert the row
        let userBal := getPoints db.reward_points cu.id
        if userBal < 1 then (db, .error .InsufficientPoints)
        else
          let authorBal := getPoints db.reward_points post.author_id
          let newUserBal := userBal - 1
          let newAuthorBal := authorBal + 1
          let rps := setPoints (setPoints db.reward_points cu.id newUserBal)
            post.author_id newAuthorBal
          let txns := db.point_transactions ++
            [⟨cu.id, .SPENT, -1, newUserBal, cu.college_id⟩,
             ⟨post.author_id, .EARNED, 1, newAuthorBal, cu.college_id⟩]
          let db' := { db with
            reward_points := rps
            point_transactions := txns
            ignites := db.ignites ++ [⟨post_id, cu.id, post.author_id⟩] }
          (db', .ok ⟨"ignited", post.ignite_count, 1⟩)

/-- The points-range validation and commit tail of rewards.py `give_reward`. -/
def give_reward_commit (db : DB) (cu : User) (receiver_id : Nat) (points : Int) :
    DB × Except ApiError Unit :=
  if points < 1 ∨ points > 100 then (db, .error .InvalidPoints)
  else
    ({ db with
        rewards := db.rewards ++ [⟨cu.id, receiver_id, points, cu.college_id⟩]
        reward_points := setPoints db.reward_points receiver_id
          (getPoints db.reward_points receiver_id + points) }, .ok ())

/-- `POST /rewards/` (rewards.py `give_reward`): writes a `Reward` row and
bumps the receiver's `RewardPoint`; no `PointTransaction` is created. -/
def give_reward (db : DB) (cu : User) (receiver_id : Nat) (points : Int)
    (post_id : Option Nat) : DB × Except ApiError Unit :=
  match findUser db.users receiver_id cu.college_id with
  | none => (db, .error .ReceiverNotFound)
  | some _ =>
    if receiver_id = cu.id then (db, .error .SelfRewardNotAllowed)
    else
      match post_id with
      | some pid =>
        match findPost db.posts pid cu.college_id with
        | none => (db, .error .PostNotFound)
        | some _ => give_reward_commit db cu receiver_id points
      | none => give_reward_commit db cu receiver_id points

/-- `RewardPoolService.get_or_create_pool`: lazily creates the pool with a
10000-point allocation and its bootstrap CREDIT transaction, committing. -/
def get_or_create_pool (db : DB) (college_id : Nat) : DB × CollegeRewardPool :=
  match findPool db.pools college_id with
  | some pool => (db, pool)
  | none =>
    let pool : CollegeRewardPool := ⟨college_id, 10000, 0, 10000, 10000, 0, 1000⟩
    ({ db with
        pools := db.pools ++ [pool]
        pool_transactions := db.pool_transactions ++
          [⟨college_id, .CREDIT, 10000, 0, 10000, none⟩] }, pool)

/-- `RewardPoolService.debit_pool`.  Note the `db.commit()` at its end: the
returned `DB` is durable even when a caller later fails. -/
def debit_pool (db : DB) (college_id : Nat) (amount : Int)
    (beneficiary_user_id : Option Nat) : DB × Except ApiError PoolTransaction :=
  let res := get_or_create_pool db college_id
  let db1 := res.1
  let pool := res.2
  if pool.available_balance < amount then (db1, .error .InsufficientPoolBalance)
  else
    let balance_before := pool.total_balance
    let newBal := balance_before - amount
    let txn : PoolTransaction :=
      ⟨college_id, .DEBIT, amount, balance_before, newBal, beneficiary_user_id⟩
    ({ db1 with
        pools := setPoolBalance db1.pools college_id newBal
        pool_transactions := db1.pool_transactions ++ [txn] }, .ok txn)

/-- `RewardPoolService.credit_pool` (no balance check, no lifetime update). -/
def credit_pool (db : DB) (college_id : Nat) (amount : Int) :
    DB × Except ApiError PoolTransaction :=
  let res := get_or_create_pool db college_id
  let db1 := res.1
  let pool := res.2
  let balance_before := pool.total_balance
  let newBal := balance_before + amount
  let txn : PoolTransaction := ⟨college_id, .CREDIT, amount, balance_before, newBal, none⟩
  ({ db1 with
      pools := setPoolBalance db1.pools college_id newBal
      pool_transactions := db1.pool_transactions ++ [txn] }, .ok txn)

/-- `RewardPoolService.give_reward_from_pool`.  `creditCommitFails` models the
storage layer failing at the second `db.commit()` (the user-credit commit);
the `except` handler then rolls back to the state `debit_pool` already
committed, so the pool debit survives. -/
def give_reward_from_pool (creditCommitFails : Bool) (db : DB)
    (college_id user_id : Nat) (amount : Int) :
    DB × Except ApiError (PoolTransaction × Int) :=
  match debit_pool db college_id amount (some user_id) with
  | (db1, .error e) => (db1, .error e)
  | (db1, .ok pool_txn) =>
    let bal := getPoints db1.reward_points user_id
    let newBal := bal + amount
    let db2 := { db1 with
      reward_points := setPoints db1.reward_points user_id newBal
      point_transactions := db1.point_transactions ++
        [⟨user_id, .EARNED, amount, newBal, college_id⟩] }
    if creditCommitFails then (db1, .error .InternalError)
    else (db2, .ok (pool_txn, newBal))

/-- store.py `get_or_create_cart` (commits the fresh cart immediately). -/
def get_or_create_cart (db : DB) (cu : User) : DB × Cart :=
  match findCart db.carts cu.id with
  | some cart => (db, cart)
  | none =>
    let cart : Cart := ⟨freshCartId db, cu.id, cu.college_id⟩
    ({ db with carts := db.carts ++ [cart] }, cart)

/-- `POST /store/cart/add` (store.py `add_to_cart`). -/
def add_to_cart (db : DB) (cu : User) (product_id : Nat) (quantity : Int) :
    DB × Except ApiError Unit :=
  match findActiveProduct db.products product_id cu.college_id with
  | none => (db, .error .ProductNotFound)
  | some product =>
    if product.stock_quantity < quantity then (db, .error .InsufficientStock)
    else if quantity > product.max_quantity_per_user then (db, .error .MaxQuantityPerUser)
    else
      let res := get_or_create_cart db cu
      let db1 := res.1
      let cart := res.2
      match findCartItem db1.cart_items cart.id product_id with
      | some item =>
        let newQ := item.quantity + quantity
        if newQ > product.max_quantity_per_user then (db1, .error .MaxQuantityPerUser)
        else if newQ > product.stock_quantity then (db1, .error .InsufficientStock)
        else
          ({ db1 with cart_items := setCartItemQty db1.cart_items cart.id product_id newQ },
           .ok ())
      | none =>
        ({ db1 with cart_items := db1.cart_items ++ [⟨cart.id, product_id, quantity⟩] },
         .ok ())

/-- Checkout's validation loop: per item, product must exist, be ACTIVE, and
have `stock_quantity ≥ quantity`; accumulates the point total and the
`(product snapshot, quantity)` pairs used to build the order. -/
def validateItems (products : List Product) :
    List CartItem → Except ApiError (Int × List (Product × Int))
  | [] => .ok (0, [])
  | item :: rest =>
    match findProduct products item.product_id with
    | none => .error .ProductNotFound
    | some p =>
      if ¬ p.status = ProductStatus.ACTIVE then .error .ProductUnavailable
      else if p.stock_quantity < item.quantity then .error .InsufficientStock
      else
        match validateItems products rest with
        | .error e => .error e
        | .ok (t, ds) => .ok (p.points_required * item.quantity + t, (p, item.quantity) :: ds)

/-- `POST /store/checkout` (store.py `checkout`): all validation happens
before any mutation; one commit at the very end. -/
def checkout (db : DB) (cu : User) : DB × Except ApiError Order :=
  match findCart db.carts cu.id with
  | none => (db, .error .CartNotFound)
  | some cart =>
    let items := itemsOfCart db.cart_items cart.id
    if items.isEmpty then (db, .error .EmptyCart)
    else
      match validateItems db.products items with
      | .error e => (db, .error e)
      | .ok (total_points, data) =>
        if ¬ hasPoints db.reward_points cu.id ∨ getPoints db.reward_points cu.id < total_points
        then (db, .error .InsufficientPoints)
        else
          let oid := freshOrderId db
          let order : Order := ⟨oid, cu.id, total_points, items.length, cu.college_id⟩
          let newBal := getPoints db.reward_points cu.id - total_points
          let db' := { db with
            orders := db.orders ++ [order]
            order_items := db.order_items ++ data.map (fun d =>
              ⟨oid, d.1.id, d.2, d.1.points_required, d.1.points_required * d.2, d.1.name⟩)
            products := data.foldl (fun ps d => subStock ps d.1.id d.2) db.products
            reward_points := setPoints db.reward_points cu.id newBal
            point_transactions := db.point_transactions ++
              [⟨cu.id, .SPENT, -total_points, newBal, cu.college_id⟩]
            cart_items := clearCart db.cart_items cart.id }
          (db', .ok order)

/-! ## Operation sequences (for the history invariants) -/

/-- One invocation of a core operation, with its request data. -/
inductive Op
  | giveReward (cu : User) (receiver_id : Nat) (points : Int) (post_id : Option Nat)
  | toggleIgnite (post_id : Nat) (cu : User)
  | creditPool (college_id : Nat) (amount : Int)
  | debitPool (college_id : Nat) (amount : Int) (beneficiary : Option Nat)
  | giveRewardFromPool (creditCommitFails : Bool) (college_id user_id : Nat) (amount : Int)
  | addToCart (cu : User) (product_id : Nat) (quantity : Int)
  | doCheckout (cu : User)

/-- The committed state after one operation (errors leave the last committed
state behind). -/
def applyOp (db : DB) : Op → DB
  | .giveReward cu rid points post_id => (give_reward db cu rid points post_id).1
  | .toggleIgnite pid cu => (toggle_ignite db pid cu).1
  | .creditPool cid amount => (credit_pool db cid amount).1
  | .debitPool cid amount beneficiary => (debit_pool db cid amount beneficiary).1
  | .giveRewardFromPool f cid uid amount => (give_reward_from_pool f db cid uid amount).1
  | .addToCart cu pid q => (add_to_cart db cu pid q).1
  | .doCheckout cu => (checkout db cu).1

/-- Run a sequence of operations left to right. -/
def runOps : List Op → DB → DB
  | [], db => db
  | op :: ops, db => runOps ops (applyOp db op)

/-- Caller-side sanity constraint the spec imposes on pool amounts
(`amount > 0`, §3 and the `/pool/credit` route's validation). -/
def Op.wf : Op → Prop
  | .creditPool _ amount => 0 < amount
  | .debitPool _ amount _ => 0 < amount
  | .giveRewardFromPool _ _ _ amount => 0 < amount
  | _ => True

/-! ## State invariants -/

/-- Non-negativity of every stored user balance, pool balance, and stock. -/
def NonNeg (db : DB) : Prop :=
  (∀ rp ∈ db.reward_points, 0 ≤ rp.total_points) ∧
  (∀ p ∈ db.pools, 0 ≤ p.total_balance) ∧
  (∀ pr ∈ db.products, 0 ≤ pr.stock_quantity)

/-- Structural well-formedness the API maintains: reserved pool balances are
non-negative and never touched, each cart holds at most one row per product,
and cart quantities are the (non-negative) values `add_to_cart` accepts. -/
def Wf (db : DB) : Prop :=
  (∀ p ∈ db.pools, 0 ≤ p.reserved_balance) ∧
  (∀ cid : Nat, ((itemsOfCart db.cart_items cid).map (fun i => i.product_id)).Nodup)

/-- The ledger bound: every user's materialized balance dominates the sum of
that user's `PointTransaction.points`. -/
def LedgerBound (db : DB) : Prop :=
  ∀ uid : Nat, txnSum db.point_transactions uid ≤ getPoints db.reward_points uid

/-! ## Helper lemmas about the row operations -/

theorem getPoints_setPoints_self (l : List RewardPoint) (u : Nat) (v : Int) :
    getPoints (setPoints l u v) u = v := by
  induction l with
  | nil => simp [setPoints, getPoints]
  | cons rp rest ih =>
    by_cases h : rp.user_id = u
    · simp [setPoints, getPoints, h]
    · simp [setPoints, getPoints, h, ih]

theorem getPoints_setPoints_ne (l : List RewardPoint) {u w : Nat} (v : Int)
    (h : u ≠ w) : getPoints (setPoints l u v) w = getPoints l w := by
  induction l with
  | nil => simp [setPoints, getPoints, h]
  | cons rp rest ih =>
    by_cases hr : rp.user_id = u
    · subst hr
      simp [setPoints, getPoints, h]
    · simp [setPoints, getPoints, hr, ih]

theorem mem_setPoints {l : List RewardPoint} {u : Nat} {v : Int} {x : RewardPoint}
    (hx : x ∈ setPoints l u v) : x ∈ l ∨ x = ⟨u, v⟩ := by
  induction l with
  | nil => simpa [setPoints] using hx
  | cons rp rest ih =>
    by_cases hr : rp.user_id = u
    · simp only [setPoints, if_pos hr, List.mem_cons] at hx
      rcases hx with hx | hx
      · exact Or.inr hx
      · exact Or.inl (List.mem_cons_of_mem _ hx)
    · simp only [setPoints, if_neg hr, List.mem_cons] at hx
      rcases hx with hx | hx
      · exact Or.inl (by simp [hx])
      · rcases ih hx with h | h
        · exact Or.inl (List.mem_cons_of_mem _ h)
        · exact Or.inr h

theorem getPoints_nonneg {l : List RewardPoint}
    (h : ∀ rp ∈ l, 0 ≤ rp.total_points) (u : Nat) : 0 ≤ getPoints l u := by
  induction l with
  | nil => simp [getPoints]
  | cons rp rest ih =>
    by_cases hr : rp.user_id = u
    · simpa [getPoints, hr] using h rp (List.mem_cons_self _ _)
    · simpa [getPoints, hr] using ih (fun x hx => h x (List.mem_cons_of_mem _ hx))

theorem txnSum_append (l l' : List PointTransaction) (u : Nat) :
    txnSum (l ++ l') u = txnSum l u + txnSum l' u := by
  induction l with
  | nil => simp [txnSum]
  | cons t rest ih => simp [txnSum, ih]; ring

theorem findIgnite_append {l : List PostIgnite} {pid gid : Nat}
    (h : findIgnite l pid gid = none) (l' : List PostIgnite) :
    findIgnite (l ++ l') pid gid = findIgnite l' pid gid := by
  induction l with
  | nil => simp
  | cons i rest ih =>
    by_cases hi : i.post_id = pid ∧ i.giver_id = gid
    · simp [findIgnite, hi] at h
    · simp only [findIgnite, if_neg hi] at h ⊢
      exact ih h

theorem findPool_mem {l : List CollegeRewardPool} {cid : Nat} {p : CollegeRewardPool}
    (h : findPool l cid = some p) : p ∈ l := by
  induction l with
  | nil => simp [findPool] at h
  | cons q rest ih =>
    by_cases hq : q.college_id = cid
    · simp only [findPool, if_pos hq, Option.some.injEq] at h
      exact h ▸ List.mem_cons_self _ _
    · simp only [findPool, if_neg hq] at h
      exact List.mem_cons_of_mem _ (ih h)

theorem findPool_setPoolBalance_self {l : List CollegeRewardPool} {cid : Nat}
    {p : CollegeRewardPool} (h : findPool l cid = some p) (v : Int) :
    findPool (setPoolBalance l cid v) cid = some { p with total_balance := v } := by
  induction l with
  | nil => simp [findPool] at h
  | cons q rest ih =>
    by_cases hq : q.college_id = cid
    · simp only [findPool, if_pos hq, Option.some.injEq] at h
      subst h
      simp [setPoolBalance, findPool, hq]
    · simp only [findPool, if_neg hq] at h
      simp [setPoolBalance, findPool, hq, ih h]

theorem mem_setPoolBalance {l : List CollegeRewardPool} {cid : Nat} {v : Int}
    {x : CollegeRewardPool} (hx : x ∈ setPoolBalance l cid v) :
    x ∈ l ∨ ∃ p, findPool l cid = some p ∧ x = { p with total_balance := v } := by
  induction l with
  | nil => simp [setPoolBalance] at hx
  | cons q rest ih =>
    by_cases hq : q.college_id = cid
    · simp only [setPoolBalance, if_pos hq, List.mem_cons] at hx
      rcases hx with hx | hx
      · exact Or.inr ⟨q, by simp [findPool, hq], hx⟩
      · exact Or.inl (List.mem_cons_of_mem _ hx)
    · simp only [setPoolBalance, if_neg hq, List.mem_cons] at hx
      rcases hx with hx | hx
      · exact Or.inl (by simp [hx])
      · rcases ih hx with h | ⟨p, hp, hxp⟩
        · exact Or.inl (List.mem_cons_of_mem _ h)
        · exact Or.inr ⟨p, by simp [findPool, hq, hp], hxp⟩

theorem findProduct_mem {l : List Product} {pid : Nat} {p : Product}
    (h : findProduct l pid = some p) : p ∈ l := by
  induction l with
  | nil => simp [findProduct] at h
  | cons q rest ih =>
    by_cases hq : q.id = pid
    · simp only [findProduct, if_pos hq, Option.some.injEq] at h
      exact h ▸ List.mem_cons_self _ _
    · simp only [findProduct, if_neg hq] at h
      exact List.mem_cons_of_mem _ (ih h)

theorem findProduct_id {l : List Product} {pid : Nat} {p : Product}
    (h : findProduct l pid = some p) : p.id = pid := by
  induction l with
  | nil => simp [findProduct] at h
  | cons q rest ih =>
    by_cases hq : q.id = pid
    · simp only [findProduct, if_pos hq, Option.some.injEq] at h
      exact h ▸ hq
    · simp only [findProduct, if_neg hq] at h
      exact ih h

theorem findProduct_subStock_ne {l : List Product} {pid pid' : Nat} (q : Int)
    (h : pid' ≠ pid) : findProduct (subStock l pid q) pid' = findProduct l pid' := by
  induction l with
  | nil => simp [subStock]
  | cons p rest ih =>
    by_cases hp : p.id = pid
    · have hne' : ¬ pid = pid' := fun hc => h hc.symm
      simp [subStock, findProduct, hp, hne']
    · by_cases hp' : p.id = pid'
      · simp [subStock, findProduct, hp, hp', h]
      · simp [subStock, findProduct, hp, hp', ih]

theorem findProduct_subStock_self {l : List Product} {pid : Nat} {p : Product}
    (h : findProduct l pid = some p) (q : Int) :
    findProduct (subStock l pid q) pid =
      some { p with stock_quantity := p.stock_quantity - q } := by
  induction l with
  | nil => simp [findProduct] at h
  | cons r rest ih =>
    by_cases hr : r.id = pid
    · simp only [findProduct, if_pos hr, Option.some.injEq] at h
      subst h
      simp [subStock, findProduct, hr]
    · simp only [findProduct, if_neg hr] at h
      simp [subStock, findProduct, hr, ih h]

theorem mem_subStock {l : List Product} {pid : Nat} {q : Int} {x : Product}
    (hx : x ∈ subStock l pid q) :
    x ∈ l ∨ ∃ p, findProduct l pid = some p ∧
      x = { p with stock_quantity := p.stock_quantity - q } := by
  induction l with
  | nil => simp [subStock] at hx
  | cons r rest ih =>
    by_cases hr : r.id = pid
    · simp only [subStock, if_pos hr, List.mem_cons] at hx
      rcases hx with hx | hx
      · exact Or.inr ⟨r, by simp [findProduct, hr], hx⟩
      · exact Or.inl (List.mem_cons_of_mem _ hx)
    · simp only [subStock, if_neg hr, List.mem_cons] at hx
      rcases hx with hx | hx
      · exact Or.inl (by simp [hx])
      · rcases ih hx with h | ⟨p, hp, hxp⟩
        · exact Or.inl (List.mem_cons_of_mem _ h)
        · exact Or.inr ⟨p, by simp [findProduct, hr, hp], hxp⟩

theorem itemsOfCart_clearCart (cs : List CartItem) (cid' cid : Nat) :
    itemsOfCart (clearCart cs cid') cid =
      if cid = cid' then [] else itemsOfCart cs cid := by
  unfold itemsOfCart clearCart
  rw [List.filter_filter]
  by_cases hc : cid = cid'
  · subst hc
    rw [if_pos rfl]
    rw [List.filter_eq_nil_iff]
    intro a _
    by_cases h : a.cart_id = cid <;> simp [h]
  · rw [if_neg hc]
    apply List.filter_congr
    intro a _
    by_cases h : a.cart_id = cid
    · have h' : ¬ a.cart_id = cid' := by rw [h]; exact hc
      simp [h, h', hc]
    · simp [h]

theorem itemsOfCart_append (cs cs' : List CartItem) (cid : Nat) :
    itemsOfCart (cs ++ cs') cid = itemsOfCart cs cid ++ itemsOfCart cs' cid := by
  simp [itemsOfCart, List.filter_append]

theorem productIds_setCartItemQty (cs : List CartItem) (cid pid : Nat) (q : Int)
    (cid' : Nat) :
    (itemsOfCart (setCartItemQty cs cid pid q) cid').map (fun i => i.product_id) =
      (itemsOfCart cs cid').map (fun i => i.product_id) := by
  induction cs with
  | nil => simp [setCartItemQty]
  | cons i rest ih =>
    simp only [itemsOfCart] at ih ⊢
    by_cases hi : i.cart_id = cid ∧ i.product_id = pid
    · rw [setCartItemQty, if_pos hi]
      by_cases hc : i.cart_id = cid'
      · simp [List.filter_cons, hc]
      · simp [List.filter_cons, hc]
    · rw [setCartItemQty, if_neg hi]
      by_cases hc : i.cart_id = cid'
      · simp [List.filter_cons, hc, ih]
      · simp [List.filter_cons, hc, ih]

theorem findCartItem_none_not_mem {cs : List CartItem} {cid pid : Nat}
    (h : findCartItem cs cid pid = none) :
    pid ∉ (itemsOfCart cs cid).map (fun i => i.product_id) := by
  induction cs with
  | nil => simp [itemsOfCart]
  | cons i rest ih =>
    by_cases hi : i.cart_id = cid ∧ i.product_id = pid
    · simp [findCartItem, hi] at h
    · simp only [findCartItem, if_neg hi] at h
      by_cases hc : i.cart_id = cid
      · have hp : ¬ i.product_id = pid := fun hp => hi ⟨hc, hp⟩
        simp [itemsOfCart, hc, List.mem_cons]
        exact ⟨fun he => hp he.symm, by simpa [itemsOfCart] using ih h⟩
      · simpa [itemsOfCart, hc] using ih h

/-- What a successful checkout validation guarantees: the snapshots come from
`findProduct` on the unmutated catalog, each has enough stock, and the
snapshot ids are exactly the cart items' product ids in order. -/
theorem validateItems_ok {ps : List Product} :
    ∀ {items : List CartItem} {t : Int} {data : List (Product × Int)},
      validateItems ps items = .ok (t, data) →
      data.map (fun d => d.1.id) = items.map (fun i => i.product_id) ∧
      data.map (fun d => d.2) = items.map (fun i => i.quantity) ∧
      ∀ d ∈ data, findProduct ps d.1.id = some d.1 ∧ d.2 ≤ d.1.stock_quantity := by
  intro items
  induction items with
  | nil =>
    intro t data h
    simp only [validateItems, Except.ok.injEq, Prod.mk.injEq] at h
    obtain ⟨h1, h2⟩ := h
    subst h2
    simp
  | cons item rest ih =>
    intro t data h
    simp only [validateItems] at h
    split at h
    · exact absurd h (by simp)
    · rename_i p hf
      split at h
      · exact absurd h (by simp)
      · split at h
        · exact absurd h (by simp)
        · rename_i hs hq
          split at h
          · exact absurd h (by simp)
          · rename_i t' ds hrest
            simp only [Except.ok.injEq, Prod.mk.injEq] at h
            obtain ⟨ht, hdata⟩ := h
            subst hdata
            obtain ⟨hids, hqtys, hmem⟩ := ih hrest
            have hpid := findProduct_id hf
            refine ⟨by simp [hpid, hids], by simp [hqtys], ?_⟩
            intro d hd
            rcases List.mem_cons.mp hd with hd | hd
            · subst hd
              exact ⟨by simpa [hpid] using hf, not_lt.mp hq⟩
            · exact hmem d hd

/-- The stock write-back loop of `checkout` keeps every stock non-negative,
provided the validation facts hold for the snapshots and each product occurs
at most once in the cart. -/
theorem foldl_subStock_nonneg :
    ∀ (data : List (Product × Int)) (ps : List Product),
      (∀ x ∈ ps, 0 ≤ x.stock_quantity) →
      (data.map (fun d => d.1.id)).Nodup →
      (∀ d ∈ data, findProduct ps d.1.id = some d.1 ∧ d.2 ≤ d.1.stock_quantity) →
      ∀ x ∈ data.foldl (fun ps d => subStock ps d.1.id d.2) ps, 0 ≤ x.stock_quantity := by
  intro data
  induction data with
  | nil => intro ps h _ _ x hx; exact h x hx
  | cons d rest ih =>
    intro ps hps hnd hd
    obtain ⟨hfd, hqd⟩ := hd d (List.mem_cons_self _ _)
    simp only [List.map_cons, List.nodup_cons] at hnd
    obtain ⟨hdnotin, hndrest⟩ := hnd
    simp only [List.foldl_cons]
    apply ih (subStock ps d.1.id d.2)
    · intro x hx
      rcases mem_subStock hx with hx | ⟨p, hp, hxp⟩
      · exact hps x hx
      · rw [hp] at hfd
        cases hfd
        rw [hxp]
        simpa using hqd
    · exact hndrest
    · intro d' hd'
      have hne : d'.1.id ≠ d.1.id := by
        intro hc
        exact hdnotin (hc ▸ List.mem_map_of_mem (fun d => d.1.id) hd')
      rw [findProduct_subStock_ne _ hne]
      exact hd d' (List.mem_cons_of_mem _ hd')

/-- Current stock of a product id (0 when the row is absent). -/
def stockOf (ps : List Product) (pid : Nat) : Int :=
  match findProduct ps pid with
  | some p => p.stock_quantity
  | none => 0

/-- The stock write-back loop decrements each purchased product's stock by
its purchased quantity and leaves every other product's stock alone. -/
theorem foldl_subStock_stockOf :
    ∀ (data : List (Product × Int)) (ps : List Product),
      (data.map (fun d => d.1.id)).Nodup →
      (∀ d ∈ data, findProduct ps d.1.id = some d.1) →
      (∀ d ∈ data,
        stockOf (data.foldl (fun ps d => subStock ps d.1.id d.2) ps) d.1.id =
          d.1.stock_quantity - d.2) ∧
      (∀ pid, pid ∉ data.map (fun d => d.1.id) →
        stockOf (data.foldl (fun ps d => subStock ps d.1.id d.2) ps) pid =
          stockOf ps pid) := by
  intro data
  induction data with
  | nil => intro ps _ _; exact ⟨by simp, by simp⟩
  | cons d rest ih =>
    intro ps hnd hfind
    simp only [List.map_cons, List.nodup_cons] at hnd
    obtain ⟨hdnotin, hndrest⟩ := hnd
    have hfd := hfind d (List.mem_cons_self _ _)
    have hrest_find : ∀ d' ∈ rest, findProduct (subStock ps d.1.id d.2) d'.1.id = some d'.1 := by
      intro d' hd'
      have hne : d'.1.id ≠ d.1.id := by
        intro hc
        exact hdnotin (hc ▸ List.mem_map_of_mem (fun d => d.1.id) hd')
      rw [findProduct_subStock_ne _ hne]
      exact hfind d' (List.mem_cons_of_mem _ hd')
    obtain ⟨ihin, ihout⟩ := ih (subStock ps d.1.id d.2) hndrest hrest_find
    constructor
    · intro d' hd'
      rcases List.mem_cons.mp hd' with hd' | hd'
      · subst hd'
        simp only [List.foldl_cons]
        rw [ihout d'.1.id hdnotin]
        unfold stockOf
        rw [findProduct_subStock_self hfd]
      · simp only [List.foldl_cons]
        exact ihin d' hd'
    · intro pid hpid
      simp only [List.map_cons, List.mem_cons] at hpid
      push_neg at hpid
      obtain ⟨hpid1, hpid2⟩ := hpid
      simp only [List.foldl_cons]
      rw [ihout pid hpid2]
      unfold stockOf
      rw [findProduct_subStock_ne _ hpid1]

/-! ## Characterizations of the ignite toggle -/

/-- The successful ignite transition, spelled out. -/
theorem toggle_ignite_ignite {db : DB} {pid : Nat} {cu : User} {post : Post}
    (hpost : findPost db.posts pid cu.college_id = some post)
    (hne : ¬ post.author_id = cu.id)
    (hig : findIgnite db.ignites pid cu.id = none)
    (hbal : 1 ≤ getPoints db.reward_points cu.id) :
    toggle_ignite db pid cu =
      ({ db with
          reward_points := setPoints
            (setPoints db.reward_points cu.id (getPoints db.reward_points cu.id - 1))
            post.author_id (getPoints db.reward_points post.author_id + 1)
          point_transactions := db.point_transactions ++
            [⟨cu.id, .SPENT, -1, getPoints db.reward_points cu.id - 1, cu.college_id⟩,
             ⟨post.author_id, .EARNED, 1,
               getPoints db.reward_points post.author_id + 1, cu.college_id⟩]
          ignites := db.ignites ++ [⟨pid, cu.id, post.author_id⟩] },
        .ok ⟨"ignited", post.ignite_count, 1⟩) := by
  simp only [toggle_ignite, hpost, hig, if_neg hne, if_neg (not_lt.mpr hbal)]

/-- The successful un-ignite transition, spelled out (note the clamp). -/
theorem toggle_ignite_unignite {db : DB} {pid : Nat} {cu : User} {post : Post}
    {ig : PostIgnite}
    (hpost : findPost db.posts pid cu.college_id = some post)
    (hne : ¬ post.author_id = cu.id)
    (hig : findIgnite db.ignites pid cu.id = some ig) :
    toggle_ignite db pid cu =
      ({ db with
          reward_points := setPoints
            (setPoints db.reward_points cu.id (getPoints db.reward_points cu.id + 1))
            post.author_id (max 0 (getPoints db.reward_points post.author_id - 1))
          point_transactions := db.point_transactions ++
            [⟨cu.id, .REFUNDED, 1, getPoints db.reward_points cu.id + 1, cu.college_id⟩,
             ⟨post.author_id, .DEDUCTED, -1,
               max 0 (getPoints db.reward_points post.author_id - 1), cu.college_id⟩]
          ignites := removeIgnite db.ignites pid cu.id },
        .ok ⟨"removed", post.ignite_count, -1⟩) := by
  simp only [toggle_ignite, hpost, hig, if_neg hne]

/-! ## Preservation of the state invariants -/

/-- The conjunction of the three state invariants; it is inductive for the
core operations. -/
def Pre (db : DB) : Prop :=
  NonNeg db ∧ Wf db ∧ LedgerBound db

theorem pre_give_reward (db : DB) (cu : User) (rid : Nat) (points : Int)
    (post_id : Option Nat) (h : Pre db) : Pre (give_reward db cu rid points post_id).1 := by
  have hcommit : Pre (give_reward_commit db cu rid points).1 := by
    unfold give_reward_commit
    split
    · exact h
    · rename_i hrange
      push_neg at hrange
      obtain ⟨hlo, _⟩ := hrange
      obtain ⟨⟨hrp, hpool, hprod⟩, hwf, hled⟩ := h
      refine ⟨⟨?_, hpool, hprod⟩, hwf, ?_⟩
      · intro rp hmem
        rcases mem_setPoints hmem with hmem | hmem
        · exact hrp rp hmem
        · rw [hmem]
          have := getPoints_nonneg hrp rid
          simp only
          omega
      · intro uid
        by_cases hu : rid = uid
        · subst hu
          rw [getPoints_setPoints_self]
          have := hled rid
          simp only at this ⊢
          omega
        · rw [getPoints_setPoints_ne _ _ hu]
          exact hled uid
  unfold give_reward
  split
  · exact h
  · split
    · exact h
    · split
      · split
        · exact h
        · exact hcommit
      · exact hcommit

theorem pre_toggle_ignite (db : DB) (pid : Nat) (cu : User) (h : Pre db) :
    Pre (toggle_ignite db pid cu).1 := by
  obtain ⟨⟨hrp, hpool, hprod⟩, hwf, hled⟩ := h
  rcases hp : findPost db.posts pid cu.college_id with _ | post
  · simp only [toggle_ignite, hp]
    exact ⟨⟨hrp, hpool, hprod⟩, hwf, hled⟩
  · by_cases hne : post.author_id = cu.id
    · simp only [toggle_ignite, hp, if_pos hne]
      exact ⟨⟨hrp, hpool, hprod⟩, hwf, hled⟩
    · have hbal0 := getPoints_nonneg hrp cu.id
      have habal0 := getPoints_nonneg hrp post.author_id
      rcases hi : findIgnite db.ignites pid cu.id with _ | ig
      · by_cases hb : getPoints db.reward_points cu.id < 1
        · simp only [toggle_ignite, hp, hi, if_neg hne, if_pos hb]
          exact ⟨⟨hrp, hpool, hprod⟩, hwf, hled⟩
        · rw [toggle_ignite_ignite hp hne hi (not_lt.mp hb)]
          refine ⟨⟨?_, hpool, hprod⟩, hwf, ?_⟩
          · intro rp hmem
            rcases mem_setPoints hmem with hmem | hmem
            · rcases mem_setPoints hmem with hmem | hmem
              · exact hrp rp hmem
              · rw [hmem]; simp only; omega
            · rw [hmem]; simp only; omega
          · intro uid
            rw [txnSum_append]
            by_cases hu : uid = cu.id
            · have h1 : ¬ post.author_id = uid := fun hc => hne (hu ▸ hc)
              rw [getPoints_setPoints_ne _ _ h1, hu, getPoints_setPoints_self]
              have := hled cu.id
              have h2 : ¬ post.author_id = cu.id := hne
              simp [txnSum, h2]
              omega
            · by_cases ha : uid = post.author_id
              · have h1 : ¬ cu.id = uid := fun hc => hu hc.symm
                rw [ha, getPoints_setPoints_self]
                have := hled uid
                rw [ha] at this
                simp [txnSum, ha, h1]
                omega
              · have h1 : ¬ cu.id = uid := fun hc => hu hc.symm
                have h2 : ¬ post.author_id = uid := fun hc => ha hc.symm
                rw [getPoints_setPoints_ne _ _ h2, getPoints_setPoints_ne _ _ h1]
                have := hled uid
                simp [txnSum, h1, h2]
                omega
      · rw [toggle_ignite_unignite hp hne hi]
        refine ⟨⟨?_, hpool, hprod⟩, hwf, ?_⟩
        · intro rp hmem
          rcases mem_setPoints hmem with hmem | hmem
          · rcases mem_setPoints hmem with hmem | hmem
            · exact hrp rp hmem
            · rw [hmem]; simp only; omega
          · rw [hmem]
            simp only
            exact le_max_left _ _
        · intro uid
          rw [txnSum_append]
          by_cases hu : uid = cu.id
          · have h1 : ¬ post.author_id = uid := fun hc => hne (hu ▸ hc)
            rw [getPoints_setPoints_ne _ _ h1, hu, getPoints_setPoints_self]
            have := hled cu.id
            have h2 : ¬ post.author_id = cu.id := hne
            simp [txnSum, h2]
            omega
          · by_cases ha : uid = post.author_id
            · rw [ha, getPoints_setPoints_self]
              have h1 : ¬ cu.id = post.author_id := fun hc => hne hc.symm
              have := hled post.author_id
              simp [txnSum, h1]
              exact Or.inr this
            · have h1 : ¬ cu.id = uid := fun hc => hu hc.symm
              have h2 : ¬ post.author_id = uid := fun hc => ha hc.symm
              rw [getPoints_setPoints_ne _ _ h2, getPoints_setPoints_ne _ _ h1]
              have := hled uid
              simp [txnSum, h1, h2]
              omega

/-- Transport `Pre` across a state that agrees on every invariant-relevant
table. -/
theorem pre_congr {db db' : DB} (h : Pre db)
    (hrp : db'.reward_points = db.reward_points)
    (htx : db'.point_transactions = db.point_transactions)
    (hpool : db'.pools = db.pools)
    (hprod : db'.products = db.products)
    (hci : db'.cart_items = db.cart_items) : Pre db' := by
  obtain ⟨⟨h1, h2, h3⟩, ⟨h4, h5⟩, h6⟩ := h
  refine ⟨⟨?_, ?_, ?_⟩, ⟨?_, ?_⟩, ?_⟩
  · rw [hrp]; exact h1
  · rw [hpool]; exact h2
  · rw [hprod]; exact h3
  · rw [hpool]; exact h4
  · intro cid; rw [hci]; exact h5 cid
  · intro uid; rw [hrp, htx]; exact h6 uid

theorem findPool_append {l : List CollegeRewardPool} {cid : Nat}
    (h : findPool l cid = none) (l' : List CollegeRewardPool) :
    findPool (l ++ l') cid = findPool l' cid := by
  induction l with
  | nil => simp
  | cons p rest ih =>
    by_cases hp : p.college_id = cid
    · simp [findPool, hp] at h
    · simp only [findPool, if_neg hp] at h
      simpa [findPool, hp] using ih h

theorem get_or_create_pool_fields (db : DB) (cid : Nat) :
    (get_or_create_pool db cid).1.reward_points = db.reward_points ∧
    (get_or_create_pool db cid).1.point_transactions = db.point_transactions ∧
    (get_or_create_pool db cid).1.products = db.products ∧
    (get_or_create_pool db cid).1.cart_items = db.cart_items ∧
    (get_or_create_pool db cid).1.carts = db.carts := by
  unfold get_or_create_pool
  split <;> simp

theorem get_or_create_pool_find (db : DB) (cid : Nat) :
    findPool (get_or_create_pool db cid).1.pools cid =
      some (get_or_create_pool db cid).2 := by
  unfold get_or_create_pool
  rcases hf : findPool db.pools cid with _ | pool
  · simp only
    rw [findPool_append hf]
    simp [findPool]
  · simpa using hf

theorem pre_get_or_create_pool (db : DB) (cid : Nat) (h : Pre db) :
    Pre (get_or_create_pool db cid).1 := by
  obtain ⟨⟨h1, h2, h3⟩, ⟨h4, h5⟩, h6⟩ := h
  unfold get_or_create_pool
  rcases hf : findPool db.pools cid with _ | pool
  · refine ⟨⟨h1, ?_, h3⟩, ⟨?_, h5⟩, h6⟩
    · intro p hp
      simp only [List.mem_append, List.mem_singleton] at hp
      rcases hp with hp | hp
      · exact h2 p hp
      · simp [hp]
    · intro p hp
      simp only [List.mem_append, List.mem_singleton] at hp
      rcases hp with hp | hp
      · exact h4 p hp
      · simp [hp]
  · exact ⟨⟨h1, h2, h3⟩, ⟨h4, h5⟩, h6⟩

theorem pre_credit_pool (db : DB) (cid : Nat) (amount : Int) (ha : 0 ≤ amount)
    (h : Pre db) : Pre (credit_pool db cid amount).1 := by
  have hdb1 := pre_get_or_create_pool db cid h
  have hfind := get_or_create_pool_find db cid
  obtain ⟨⟨h1, h2, h3⟩, ⟨h4, h5⟩, h6⟩ := hdb1
  have hmem := findPool_mem hfind
  refine ⟨⟨h1, ?_, h3⟩, ⟨?_, h5⟩, h6⟩
  · intro p hp
    rcases mem_setPoolBalance hp with hp | ⟨q, hq, hpq⟩
    · exact h2 p hp
    · rw [hfind] at hq
      cases hq
      rw [hpq]
      have := h2 _ hmem
      simp only
      omega
  · intro p hp
    rcases mem_setPoolBalance hp with hp | ⟨q, hq, hpq⟩
    · exact h4 p hp
    · rw [hfind] at hq
      cases hq
      rw [hpq]
      have := h4 _ hmem
      simp only
      exact this

theorem pre_debit_pool (db : DB) (cid : Nat) (amount : Int)
    (beneficiary : Option Nat) (h : Pre db) :
    Pre (debit_pool db cid amount beneficiary).1 := by
  have hdb1 := pre_get_or_create_pool db cid h
  have hfind := get_or_create_pool_find db cid
  unfold debit_pool
  by_cases hav : (get_or_create_pool db cid).2.available_balance < amount
  · simp only [if_pos hav]
    exact hdb1
  · simp only [if_neg hav]
    obtain ⟨⟨h1, h2, h3⟩, ⟨h4, h5⟩, h6⟩ := hdb1
    have hmem := findPool_mem hfind
    have hres := h4 _ hmem
    refine ⟨⟨h1, ?_, h3⟩, ⟨?_, h5⟩, h6⟩
    · intro p hp
      rcases mem_setPoolBalance hp with hp | ⟨q, hq, hpq⟩
      · exact h2 p hp
      · rw [hfind] at hq
        cases hq
        rw [hpq]
        simp only
        have hav' := not_lt.mp hav
        unfold CollegeRewardPool.available_balance at hav'
        omega
    · intro p hp
      rcases mem_setPoolBalance hp with hp | ⟨q, hq, hpq⟩
      · exact h4 p hp
      · rw [hfind] at hq
        cases hq
        rw [hpq]
        simp only
        exact hres

theorem pre_give_reward_from_pool (f : Bool) (db : DB) (cid uid : Nat)
    (amount : Int) (ha : 0 ≤ amount) (h : Pre db) :
    Pre (give_reward_from_pool f db cid uid amount).1 := by
  have hdeb := pre_debit_pool db cid amount (some uid) h
  unfold give_reward_from_pool
  rcases hd : debit_pool db cid amount (some uid) with ⟨db1, r⟩
  have hdb1 : Pre db1 := by rw [hd] at hdeb; exact hdeb
  rcases r with e | ptxn
  · exact hdb1
  · simp only
    split
    · exact hdb1
    · obtain ⟨⟨h1, h2, h3⟩, ⟨h4, h5⟩, h6⟩ := hdb1
      refine ⟨⟨?_, h2, h3⟩, ⟨h4, h5⟩, ?_⟩
      · intro rp hmem
        rcases mem_setPoints hmem with hmem | hmem
        · exact h1 rp hmem
        · rw [hmem]
          have := getPoints_nonneg h1 uid
          simp only
          omega
      · intro u
        rw [txnSum_append]
        by_cases hu : u = uid
        · rw [hu, getPoints_setPoints_self]
          have := h6 uid
          simp [txnSum]
          omega
        · have h1' : ¬ uid = u := fun hc => hu hc.symm
          rw [getPoints_setPoints_ne _ _ h1']
          have := h6 u
          simp [txnSum, h1']
          omega

theorem get_or_create_cart_fields (db : DB) (cu : User) :
    (get_or_create_cart db cu).1.reward_points = db.reward_points ∧
    (get_or_create_cart db cu).1.point_transactions = db.point_transactions ∧
    (get_or_create_cart db cu).1.pools = db.pools ∧
    (get_or_create_cart db cu).1.products = db.products ∧
    (get_or_create_cart db cu).1.cart_items = db.cart_items := by
  unfold get_or_create_cart
  split <;> simp

theorem pre_add_to_cart (db : DB) (cu : User) (pid : Nat) (q : Int)
    (h : Pre db) : Pre (add_to_cart db cu pid q).1 := by
  obtain ⟨hf1, hf2, hf3, hf4, hf5⟩ := get_or_create_cart_fields db cu
  have hdb1 : Pre (get_or_create_cart db cu).1 := pre_congr h hf1 hf2 hf3 hf4 hf5
  unfold add_to_cart
  split
  · exact h
  · split
    · exact h
    · split
      · exact h
      · rcases hitem : findCartItem (get_or_create_cart db cu).1.cart_items
            (get_or_create_cart db cu).2.id pid with _ | item
        · simp only [hitem]
          obtain ⟨hn, ⟨hw1, hw2⟩, hl⟩ := hdb1
          refine ⟨hn, ⟨hw1, ?_⟩, hl⟩
          intro cid
          rw [itemsOfCart_append, List.map_append]
          by_cases hc : (get_or_create_cart db cu).2.id = cid
          · have hnotmem := findCartItem_none_not_mem hitem
            rw [hc] at hnotmem
            have hsing : itemsOfCart
                [(⟨(get_or_create_cart db cu).2.id, pid, q⟩ : CartItem)] cid =
                [⟨(get_or_create_cart db cu).2.id, pid, q⟩] := by
              simp [itemsOfCart, hc]
            rw [hsing, List.nodup_append]
            refine ⟨hw2 cid, by simp, ?_⟩
            intro a ha hb
            simp only [List.map_cons, List.map_nil, List.mem_singleton] at hb
            subst hb
            exact hnotmem ha
          · have hsing : itemsOfCart
                [(⟨(get_or_create_cart db cu).2.id, pid, q⟩ : CartItem)] cid = [] := by
              simp [itemsOfCart, hc]
            rw [hsing]
            simp only [List.map_nil, List.append_nil]
            exact hw2 cid
        · simp only [hitem]
          split
          · exact hdb1
          · split
            · exact hdb1
            · obtain ⟨hn, ⟨hw1, hw2⟩, hl⟩ := hdb1
              refine ⟨hn, ⟨hw1, ?_⟩, hl⟩
              intro cid
              rw [productIds_setCartItemQty]
              exact hw2 cid

theorem pre_checkout (db : DB) (cu : User) (h : Pre db) : Pre (checkout db cu).1 := by
  rcases hcart : findCart db.carts cu.id with _ | cart
  · simp only [checkout, hcart]
    exact h
  · by_cases hempty : (itemsOfCart db.cart_items cart.id).isEmpty
    · simp only [checkout, hcart, if_pos hempty]
      exact h
    · rcases hv : validateItems db.products (itemsOfCart db.cart_items cart.id)
        with e | td
      · simp only [checkout, hcart, if_neg hempty, hv]
        exact h
      · obtain ⟨total, data⟩ := td
        by_cases hcond : ¬ (hasPoints db.reward_points cu.id = true) ∨
            getPoints db.reward_points cu.id < total
        · simp only [checkout, hcart, if_neg hempty, hv, if_pos hcond]
          exact h
        · simp only [checkout, hcart, if_neg hempty, hv, if_neg hcond]
          push_neg at hcond
          obtain ⟨hhas, hble⟩ := hcond
          obtain ⟨⟨h1, h2, h3⟩, ⟨h4, h5⟩, h6⟩ := h
          obtain ⟨hids, hqtys, hmem⟩ := validateItems_ok hv
          have hnodup : (data.map (fun d => d.1.id)).Nodup := by
            rw [hids]
            exact h5 cart.id
          refine ⟨⟨?_, h2, ?_⟩, ⟨h4, ?_⟩, ?_⟩
          · intro rp hmemr
            rcases mem_setPoints hmemr with hm | hm
            · exact h1 rp hm
            · rw [hm]
              simp only
              omega
          · exact foldl_subStock_nonneg data db.products h3 hnodup hmem
          · intro cid
            rw [itemsOfCart_clearCart]
            by_cases hc : cid = cart.id
            · simp [hc]
            · rw [if_neg hc]
              exact h5 cid
          · intro uid
            rw [txnSum_append]
            by_cases hu : uid = cu.id
            · rw [hu, getPoints_setPoints_self]
              have := h6 cu.id
              simp [txnSum]
              omega
            · have h1' : ¬ cu.id = uid := fun hc => hu hc.symm
              rw [getPoints_setPoints_ne _ _ h1']
              have := h6 uid
              simp [txnSum, h1']
              omega

theorem pre_applyOp (db : DB) (op : Op) (hwf : op.wf) (h : Pre db) :
    Pre (applyOp db op) := by
  cases op with
  | giveReward cu rid points post_id => exact pre_give_reward db cu rid points post_id h
  | toggleIgnite pid cu => exact pre_toggle_ignite db pid cu h
  | creditPool cid amount => exact pre_credit_pool db cid amount (le_of_lt hwf) h
  | debitPool cid amount beneficiary => exact pre_debit_pool db cid amount beneficiary h
  | giveRewardFromPool f cid uid amount =>
    exact pre_give_reward_from_pool f db cid uid amount (le_of_lt hwf) h
  | addToCart cu pid q => exact pre_add_to_cart db cu pid q h
  | doCheckout cu => exact pre_checkout db cu h

theorem pre_runOps (ops : List Op) (db : DB) (hwf : ∀ op ∈ ops, op.wf)
    (h : Pre db) : Pre (runOps ops db) := by
  induction ops generalizing db with
  | nil => exact h
  | cons op rest ih =>
    exact ih (applyOp db op) (fun o ho => hwf o (List.mem_cons_of_mem _ ho))
      (pre_applyOp db op (hwf op (List.mem_cons_self _ _)) h)

/-! ## Concrete states used as test fixtures -/

/-- The empty database. -/
def emptyDB : DB := ⟨[], [], [], [], [], [], [], [], [], [], [], [], []⟩

theorem pre_emptyDB : Pre emptyDB := by
  refine ⟨⟨?_, ?_, ?_⟩, ⟨?_, ?_⟩, ?_⟩ <;>
    simp [emptyDB, itemsOfCart, LedgerBound, txnSum, getPoints]

/-- Post 1 written by user 2 in college 1; giver user 3 holds 5 points, the
author holds 10 (spec scenario 2). -/
def igniteDB : DB :=
  { emptyDB with
    users := [⟨2, 1⟩, ⟨3, 1⟩]
    posts := [⟨1, 2, 1, 0⟩]
    reward_points := [⟨3, 5⟩, ⟨2, 10⟩] }

/-- Same post, but the giver has 0 points (spec scenario 1). -/
def brokeIgniteDB : DB :=
  { igniteDB with reward_points := [⟨3, 0⟩, ⟨2, 10⟩] }

/-- Two users of college 1, no point rows, no transactions. -/
def rewardDB : DB := { emptyDB with users := [⟨1, 1⟩, ⟨2, 1⟩] }

/-- College 1 already has its pool (balance 10000), user 7 exists with no
points. -/
def poolDB : DB :=
  { emptyDB with
    users := [⟨7, 1⟩]
    pools := [⟨1, 10000, 0, 10000, 10000, 0, 1000⟩] }

/-- User 1 (college 1) with balance `bal`; product 10 "Widget" costs 150
points, stock 10, max 5 per user; the user's cart holds quantity 2
(spec scenarios 3 and 4). -/
def storeDB (bal : Int) : DB :=
  { emptyDB with
    users := [⟨1, 1⟩]
    reward_points := [⟨1, bal⟩]
    products := [⟨10, "Widget", 150, 10, 5, .ACTIVE, 1⟩]
    carts := [⟨1, 1, 1⟩]
    cart_items := [⟨1, 10, 2⟩] }

/-- Product 10 with stock 3 and per-user cap 10; user 1 already has
quantity 2 of it in their cart. -/
def staleCartDB : DB :=
  { emptyDB with
    users := [⟨1, 1⟩]
    products := [⟨10, "Widget", 50, 3, 10, .ACTIVE, 1⟩]
    carts := [⟨1, 1, 1⟩]
    cart_items := [⟨1, 10, 2⟩] }

/-! ## Claim theorems -/

/-- C1 counterexample: a single `give_reward` of 5 points to user 2 leaves
user 2's materialized balance at 5 while the sum of user 2's
`PointTransaction.points` is 0 — `give_reward` writes a `Reward` row but no
`PointTransaction`, so the claimed equality fails. -/
theorem c1_counterexample :
    (give_reward rewardDB ⟨1, 1⟩ 2 5 none).2 = .ok () ∧
    getPoints (give_reward rewardDB ⟨1, 1⟩ 2 5 none).1.reward_points 2 = 5 ∧
    txnSum (give_reward rewardDB ⟨1, 1⟩ 2 5 none).1.point_transactions 2 = 0 ∧
    ¬ (txnSum (give_reward rewardDB ⟨1, 1⟩ 2 5 none).1.point_transactions 2 =
        getPoints (give_reward rewardDB ⟨1, 1⟩ 2 5 none).1.reward_points 2) := by
  decide

/-- C1 (amended): across every sequence of core operations (give_reward,
toggle_ignite, credit_pool, debit_pool, give_reward_from_pool, add_to_cart,
checkout) from a consistent state, every user's materialized
`total_points` is at least the sum of that user's `PointTransaction.points`;
equality does not hold in general because `give_reward` credits the balance
with no ledger row and un-ignite clamps the author's balance at 0 while
still recording a −1 `DEDUCTED` transaction. -/
theorem c1_balance_dominates_ledger (ops : List Op) (db : DB)
    (hwf : ∀ op ∈ ops, op.wf) (h : Pre db) : LedgerBound (runOps ops db) :=
  (pre_runOps ops db hwf h).2.2

theorem pre_igniteDB : Pre igniteDB := by
  refine ⟨⟨?_, ?_, ?_⟩, ⟨?_, ?_⟩, ?_⟩
  · decide
  · decide
  · decide
  · decide
  · intro cid
    simp [igniteDB, emptyDB, itemsOfCart]
  · intro uid
    simp only [igniteDB, emptyDB, LedgerBound, txnSum, getPoints]
    split_ifs <;> norm_num

/-- C1 witness: the amended invariant evaluated across an ignite followed by
an un-ignite from scenario 2's state. -/
theorem c1_balance_dominates_ledger_witness :
    LedgerBound (runOps [Op.toggleIgnite 1 ⟨3, 1⟩, Op.toggleIgnite 1 ⟨3, 1⟩]
      igniteDB) :=
  c1_balance_dominates_ledger _ _ (by simp [Op.wf]) pre_igniteDB

/-- C2: evaluating `give_reward_from_pool` on a 10000-point pool with the
user-credit commit failing shows the pool debit (already committed inside
`debit_pool`) survives the rollback: the pool drops to 9900 with a DEBIT
`PoolTransaction` written, while the user balance and the user ledger are
untouched — contradicting the all-or-nothing claim and the function's own
docstring. -/
theorem c2_pool_debit_commit_leak :
    (give_reward_from_pool true poolDB 1 7 100).2 = .error .InternalError ∧
    findPool (give_reward_from_pool true poolDB 1 7 100).1.pools 1 =
      some ⟨1, 9900, 0, 10000, 10000, 0, 1000⟩ ∧
    (give_reward_from_pool true poolDB 1 7 100).1.pool_transactions =
      [⟨1, .DEBIT, 100, 10000, 9900, some 7⟩] ∧
    getPoints (give_reward_from_pool true poolDB 1 7 100).1.reward_points 7 = 0 ∧
    (give_reward_from_pool true poolDB 1 7 100).1.point_transactions = [] := by
  decide

/-- C5: a successful ignite (giver 3 with 5 points, author 2 with 10) moves
the balances to 4 and 11 and inserts the `PostIgnite` row, but the post's
denormalized `ignite_count` stays 0 — no code path ever increments it, and
the response reports the stale column. -/
theorem c5_ignite_count_never_incremented :
    (toggle_ignite igniteDB 1 ⟨3, 1⟩).2 = .ok ⟨"ignited", 0, 1⟩ ∧
    getPoints (toggle_ignite igniteDB 1 ⟨3, 1⟩).1.reward_points 3 = 4 ∧
    getPoints (toggle_ignite igniteDB 1 ⟨3, 1⟩).1.reward_points 2 = 11 ∧
    (toggle_ignite igniteDB 1 ⟨3, 1⟩).1.point_transactions =
      [⟨3, .SPENT, -1, 4, 1⟩, ⟨2, .EARNED, 1, 11, 1⟩] ∧
    findIgnite (toggle_ignite igniteDB 1 ⟨3, 1⟩).1.ignites 1 3 = some ⟨1, 3, 2⟩ ∧
    (toggle_ignite igniteDB 1 ⟨3, 1⟩).1.posts = igniteDB.posts ∧
    (findPost (toggle_ignite igniteDB 1 ⟨3, 1⟩).1.posts 1 1).map Post.ignite_count =
      some 0 := by
  decide

/-- C9: no sequence of core operations from a consistent state ever leaves a
stored user balance, pool `total_balance`, or product `stock_quantity`
negative. -/
theorem c9_non_negativity (ops : List Op) (db : DB)
    (hwf : ∀ op ∈ ops, op.wf) (h : Pre db) : NonNeg (runOps ops db) :=
  (pre_runOps ops db hwf h).1

theorem pre_poolDB : Pre poolDB := by
  refine ⟨⟨?_, ?_, ?_⟩, ⟨?_, ?_⟩, ?_⟩
  · decide
  · decide
  · decide
  · decide
  · intro cid
    simp [poolDB, emptyDB, itemsOfCart]
  · intro uid
    simp [poolDB, emptyDB, LedgerBound, txnSum, getPoints]

/-- C9 witness: non-negativity evaluated across a pool credit, a pool-backed
user reward, and a pool debit. -/
theorem c9_non_negativity_witness :
    NonNeg (runOps [Op.creditPool 1 5000, Op.giveRewardFromPool false 1 7 100,
      Op.debitPool 1 50 none] poolDB) :=
  c9_non_negativity _ _ (by simp [Op.wf]) pre_poolDB

/-- C3: if checkout returns an error, the committed state is exactly the
input state — every validation runs before any mutation, so cart items,
stocks, balances, orders and ledgers are all unchanged. -/
theorem c3_checkout_failure_atomic (db : DB) (cu : User) (db' : DB)
    (e : ApiError) (h : checkout db cu = (db', .error e)) : db' = db := by
  rcases hcart : findCart db.carts cu.id with _ | cart
  · simp only [checkout, hcart] at h
    cases h
    rfl
  · by_cases hempty : (itemsOfCart db.cart_items cart.id).isEmpty
    · simp only [checkout, hcart, if_pos hempty] at h
      cases h
      rfl
    · rcases hv : validateItems db.products (itemsOfCart db.cart_items cart.id)
        with e' | td
      · simp only [checkout, hcart, if_neg hempty, hv] at h
        cases h
        rfl
      · obtain ⟨total, data⟩ := td
        by_cases hcond : ¬ (hasPoints db.reward_points cu.id = true) ∨
            getPoints db.reward_points cu.id < total
        · simp only [checkout, hcart, if_neg hempty, hv, if_pos hcond] at h
          cases h
          rfl
        · simp only [checkout, hcart, if_neg hempty, hv, if_neg hcond] at h
          simp at h

/-- C3 witness: scenario 3 (cart total 300, balance 250) fails with
`InsufficientPoints` and the state is returned untouched. -/
theorem c3_checkout_failure_atomic_witness : storeDB 250 = storeDB 250 :=
  c3_checkout_failure_atomic (storeDB 250) ⟨1, 1⟩ (storeDB 250)
    .InsufficientPoints (by decide)

/-- C7: on a post the caller has not ignited, `toggle_ignite` fails with
`SelfIgniteNotAllowed` when the caller is the author, and with
`InsufficientPoints` when the caller's balance is below 1; in both cases the
returned state is the input state (no transaction, row, balance or counter
change). -/
theorem c7_ignite_failures (db : DB) (pid : Nat) (cu : User) (post : Post)
    (hpost : findPost db.posts pid cu.college_id = some post) :
    (post.author_id = cu.id →
      toggle_ignite db pid cu = (db, .error .SelfIgniteNotAllowed)) ∧
    (¬ post.author_id = cu.id →
      findIgnite db.ignites pid cu.id = none →
      getPoints db.reward_points cu.id < 1 →
      toggle_ignite db pid cu = (db, .error .InsufficientPoints)) := by
  constructor
  · intro hself
    simp only [toggle_ignite, hpost, if_pos hself]
  · intro hne hig hlt
    simp only [toggle_ignite, hpost, if_neg hne, hig, if_pos hlt]

/-- C7 witness: the author self-igniting post 1, and a zero-balance giver
igniting it (scenario 1). -/
theorem c7_ignite_failures_witness :
    toggle_ignite igniteDB 1 ⟨2, 1⟩ = (igniteDB, .error .SelfIgniteNotAllowed) ∧
    toggle_ignite brokeIgniteDB 1 ⟨3, 1⟩ =
      (brokeIgniteDB, .error .InsufficientPoints) :=
  ⟨(c7_ignite_failures igniteDB 1 ⟨2, 1⟩ ⟨1, 2, 1, 0⟩ (by decide)).1 (by decide),
   (c7_ignite_failures brokeIgniteDB 1 ⟨3, 1⟩ ⟨1, 2, 1, 0⟩ (by decide)).2
     (by decide) (by decide) (by decide)⟩

/-- C8 counterexample: crediting 5000 into a pool whose `lifetime_credits`
is 10000 leaves `lifetime_credits` at 10000 — neither `credit_pool` nor
`debit_pool` touches the lifetime counters, so the claimed increase fails. -/
theorem c8_counterexample :
    (credit_pool poolDB 1 5000).2 = .ok ⟨1, .CREDIT, 5000, 10000, 15000, none⟩ ∧
    findPool (credit_pool poolDB 1 5000).1.pools 1 =
      some ⟨1, 15000, 0, 10000, 10000, 0, 1000⟩ ∧
    ¬ ((findPool (credit_pool poolDB 1 5000).1.pools 1).map
        CollegeRewardPool.lifetime_credits = some 15000) := by
  decide

/-- C8 (amended): on an existing pool, `credit_pool` raises `total_balance`
by `amount` and appends one CREDIT `PoolTransaction` with correct
`balance_before`/`balance_after` but leaves `lifetime_credits` unchanged;
`debit_pool` fails with `InsufficientPoolBalance` when
`available_balance < amount` (state unchanged), and otherwise lowers
`total_balance` by `amount` and appends one DEBIT `PoolTransaction`, leaving
`lifetime_debits` unchanged. -/
theorem c8_pool_ops (db : DB) (cid : Nat) (amount : Int)
    (pool : CollegeRewardPool) (beneficiary : Option Nat)
    (hpool : findPool db.pools cid = some pool) :
    (credit_pool db cid amount = ({ db with
        pools := setPoolBalance db.pools cid (pool.total_balance + amount)
        pool_transactions := db.pool_transactions ++
          [⟨cid, .CREDIT, amount, pool.total_balance,
            pool.total_balance + amount, none⟩] },
      .ok ⟨cid, .CREDIT, amount, pool.total_balance,
        pool.total_balance + amount, none⟩) ∧
      findPool (credit_pool db cid amount).1.pools cid =
        some { pool with total_balance := pool.total_balance + amount }) ∧
    (pool.available_balance < amount →
      debit_pool db cid amount beneficiary = (db, .error .InsufficientPoolBalance)) ∧
    (¬ pool.available_balance < amount →
      debit_pool db cid amount beneficiary = ({ db with
        pools := setPoolBalance db.pools cid (pool.total_balance - amount)
        pool_transactions := db.pool_transactions ++
          [⟨cid, .DEBIT, amount, pool.total_balance,
            pool.total_balance - amount, beneficiary⟩] },
        .ok ⟨cid, .DEBIT, amount, pool.total_balance,
          pool.total_balance - amount, beneficiary⟩) ∧
      findPool (debit_pool db cid amount beneficiary).1.pools cid =
        some { pool with total_balance := pool.total_balance - amount }) := by
  have hcred : credit_pool db cid amount = ({ db with
      pools := setPoolBalance db.pools cid (pool.total_balance + amount)
      pool_transactions := db.pool_transactions ++
        [⟨cid, .CREDIT, amount, pool.total_balance,
          pool.total_balance + amount, none⟩] },
    .ok ⟨cid, .CREDIT, amount, pool.total_balance,
      pool.total_balance + amount, none⟩) := by
    simp only [credit_pool, get_or_create_pool, hpool]
  refine ⟨⟨hcred, ?_⟩, ?_, ?_⟩
  · rw [hcred]
    exact findPool_setPoolBalance_self hpool _
  · intro hlt
    simp only [debit_pool, get_or_create_pool, hpool, if_pos hlt]
  · intro hge
    have hdeb : debit_pool db cid amount beneficiary = ({ db with
        pools := setPoolBalance db.pools cid (pool.total_balance - amount)
        pool_transactions := db.pool_transactions ++
          [⟨cid, .DEBIT, amount, pool.total_balance,
            pool.total_balance - amount, beneficiary⟩] },
      .ok ⟨cid, .DEBIT, amount, pool.total_balance,
        pool.total_balance - amount, beneficiary⟩) := by
      simp only [debit_pool, get_or_create_pool, hpool, if_neg hge]
    refine ⟨hdeb, ?_⟩
    rw [hdeb]
    exact findPool_setPoolBalance_self hpool _

/-- C8 witness: a 500-point credit and a 20000-point debit attempt on the
10000-point pool of college 1. -/
theorem c8_pool_ops_witness :
    findPool (credit_pool poolDB 1 500).1.pools 1 =
      some ⟨1, 10500, 0, 10000, 10000, 0, 1000⟩ ∧
    debit_pool poolDB 1 20000 none = (poolDB, .error .InsufficientPoolBalance) :=
  ⟨(c8_pool_ops poolDB 1 500 ⟨1, 10000, 0, 10000, 10000, 0, 1000⟩ none
      (by decide)).1.2,
   (c8_pool_ops poolDB 1 20000 ⟨1, 10000, 0, 10000, 10000, 0, 1000⟩ none
      (by decide)).2.1 (by decide)⟩

/-- C4 counterexample: scenario 4 (one product, quantity 2, total 300,
balance 500) succeeds with stock 8 and balance 200 — but produces ONE
`OrderItem` (of quantity 2), not the two the claim states. -/
theorem c4_counterexample :
    (checkout (storeDB 500) ⟨1, 1⟩).2 = .ok ⟨1, 1, 300, 1, 1⟩ ∧
    stockOf (checkout (storeDB 500) ⟨1, 1⟩).1.products 10 = 8 ∧
    getPoints (checkout (storeDB 500) ⟨1, 1⟩).1.reward_points 1 = 200 ∧
    itemsOfCart (checkout (storeDB 500) ⟨1, 1⟩).1.cart_items 1 = [] ∧
    (checkout (storeDB 500) ⟨1, 1⟩).1.order_items.length = 1 ∧
    ¬ (checkout (storeDB 500) ⟨1, 1⟩).1.order_items.length = 2 := by
  decide

/-- C4 (amended): for every cart whose validation passes (products ACTIVE
with enough stock, distinct per cart) and whose owner has a balance row of
at least the cart total, checkout succeeds, decrements each purchased
product's stock by its quantity, debits the user by the total, appends
exactly one SPENT `PointTransaction` of −total, clears the cart, and creates
one `Order` plus one `OrderItem` per cart line carrying the frozen
`product_name`/`points_per_item` snapshot (so one product of quantity 2
yields a single `OrderItem`). -/
theorem c4_checkout_success (db : DB) (cu : User) (cart : Cart) (total : Int)
    (data : List (Product × Int))
    (hcart : findCart db.carts cu.id = some cart)
    (hne : ¬ (itemsOfCart db.cart_items cart.id).isEmpty)
    (hv : validateItems db.products (itemsOfCart db.cart_items cart.id) =
      .ok (total, data))
    (hhas : hasPoints db.reward_points cu.id = true)
    (hble : total ≤ getPoints db.reward_points cu.id)
    (hnodup : ((itemsOfCart db.cart_items cart.id).map
      (fun i => i.product_id)).Nodup) :
    (checkout db cu).2 = .ok ⟨freshOrderId db, cu.id, total,
        (itemsOfCart db.cart_items cart.id).length, cu.college_id⟩ ∧
    (∀ d ∈ data, stockOf (checkout db cu).1.products d.1.id =
        d.1.stock_quantity - d.2) ∧
    getPoints (checkout db cu).1.reward_points cu.id =
        getPoints db.reward_points cu.id - total ∧
    (checkout db cu).1.point_transactions = db.point_transactions ++
        [⟨cu.id, .SPENT, -total,
          getPoints db.reward_points cu.id - total, cu.college_id⟩] ∧
    itemsOfCart (checkout db cu).1.cart_items cart.id = [] ∧
    (checkout db cu).1.orders = db.orders ++ [⟨freshOrderId db, cu.id, total,
        (itemsOfCart db.cart_items cart.id).length, cu.college_id⟩] ∧
    (checkout db cu).1.order_items = db.order_items ++ data.map (fun d =>
        ⟨freshOrderId db, d.1.id, d.2, d.1.points_required,
         d.1.points_required * d.2, d.1.name⟩) := by
  have hcond : ¬ (¬ (hasPoints db.reward_points cu.id = true) ∨
      getPoints db.reward_points cu.id < total) := by
    push_neg
    exact ⟨hhas, hble⟩
  simp only [checkout, hcart, if_neg hne, hv, if_neg hcond]
  obtain ⟨hids, hqtys, hmem⟩ := validateItems_ok hv
  have hnodup' : (data.map (fun d => d.1.id)).Nodup := by
    rw [hids]
    exact hnodup
  obtain ⟨hin, hout⟩ := foldl_subStock_stockOf data db.products hnodup'
    (fun d hd => (hmem d hd).1)
  refine ⟨?_, hin, getPoints_setPoints_self _ _ _, ?_, ?_, ?_, ?_⟩
  · trivial
  · trivial
  · rw [itemsOfCart_clearCart, if_pos rfl]
  · trivial
  · trivial

/-- C4 witness: the amended theorem applied to scenario 4's state (balance
500, one product of 150 points, quantity 2). -/
theorem c4_checkout_success_witness :
    getPoints (checkout (storeDB 500) ⟨1, 1⟩).1.reward_points 1 =
      getPoints (storeDB 500).reward_points 1 - 300 ∧
    (checkout (storeDB 500) ⟨1, 1⟩).1.order_items =
      (storeDB 500).order_items ++
        [⟨1, 10, 2, 150, 300, "Widget"⟩] :=
  ⟨(c4_checkout_success (storeDB 500) ⟨1, 1⟩ ⟨1, 1, 1⟩ 300
      [(⟨10, "Widget", 150, 10, 5, .ACTIVE, 1⟩, 2)]
      (by decide) (by decide) (by decide) (by decide) (by decide)
      (by decide)).2.2.1,
   (c4_checkout_success (storeDB 500) ⟨1, 1⟩ ⟨1, 1, 1⟩ 300
      [(⟨10, "Widget", 150, 10, 5, .ACTIVE, 1⟩, 2)]
      (by decide) (by decide) (by decide) (by decide) (by decide)
      (by decide)).2.2.2.2.2.2⟩

/-- C6: toggling ignite twice from a state with no existing ignite row
(giver distinct from the author, giver balance at least 1, author balance
non-negative) restores the giver's balance, the author's balance, and the
posts table — hence the post's `ignite_count` — to their original values. -/
theorem c6_ignite_round_trip (db : DB) (pid : Nat) (cu : User) (post : Post)
    (hpost : findPost db.posts pid cu.college_id = some post)
    (hne : ¬ post.author_id = cu.id)
    (hig : findIgnite db.ignites pid cu.id = none)
    (hbal : 1 ≤ getPoints db.reward_points cu.id)
    (habal : 0 ≤ getPoints db.reward_points post.author_id) :
    getPoints (toggle_ignite (toggle_ignite db pid cu).1 pid cu).1.reward_points
        cu.id = getPoints db.reward_points cu.id ∧
    getPoints (toggle_ignite (toggle_ignite db pid cu).1 pid cu).1.reward_points
        post.author_id = getPoints db.reward_points post.author_id ∧
    (toggle_ignite (toggle_ignite db pid cu).1 pid cu).1.posts = db.posts := by
  have h1 := toggle_ignite_ignite hpost hne hig hbal
  have hig2 : findIgnite (db.ignites ++ [⟨pid, cu.id, post.author_id⟩]) pid cu.id
      = some ⟨pid, cu.id, post.author_id⟩ := by
    rw [findIgnite_append hig]
    simp [findIgnite]
  have hg1 : getPoints (setPoints (setPoints db.reward_points cu.id
      (getPoints db.reward_points cu.id - 1)) post.author_id
      (getPoints db.reward_points post.author_id + 1)) cu.id
      = getPoints db.reward_points cu.id - 1 := by
    rw [getPoints_setPoints_ne _ _ hne, getPoints_setPoints_self]
  have ha1 : getPoints (setPoints (setPoints db.reward_points cu.id
      (getPoints db.reward_points cu.id - 1)) post.author_id
      (getPoints db.reward_points post.author_id + 1)) post.author_id
      = getPoints db.reward_points post.author_id + 1 :=
    getPoints_setPoints_self _ _ _
  rw [h1]
  have h2 := @toggle_ignite_unignite { db with
      reward_points := setPoints (setPoints db.reward_points cu.id
        (getPoints db.reward_points cu.id - 1)) post.author_id
        (getPoints db.reward_points post.author_id + 1)
      point_transactions := db.point_transactions ++
        [⟨cu.id, .SPENT, -1, getPoints db.reward_points cu.id - 1, cu.college_id⟩,
         ⟨post.author_id, .EARNED, 1,
           getPoints db.reward_points post.author_id + 1, cu.college_id⟩]
      ignites := db.ignites ++ [⟨pid, cu.id, post.author_id⟩] }
    pid cu post ⟨pid, cu.id, post.author_id⟩ hpost hne hig2
  rw [h2]
  simp only [hg1, ha1]
  refine ⟨?_, ?_, by trivial⟩
  · rw [getPoints_setPoints_ne _ _ hne, getPoints_setPoints_self]
    omega
  · rw [getPoints_setPoints_self]
    have harith : getPoints db.reward_points post.author_id + 1 - 1 =
        getPoints db.reward_points post.author_id := by omega
    rw [harith, max_eq_right habal]

/-- C6 witness: scenario 2 — giver 3 (5 points) toggles post 1 twice;
both balances and the posts table come back to their original values. -/
theorem c6_ignite_round_trip_witness :
    getPoints (toggle_ignite (toggle_ignite igniteDB 1 ⟨3, 1⟩).1 1
        ⟨3, 1⟩).1.reward_points 3 = getPoints igniteDB.reward_points 3 ∧
    getPoints (toggle_ignite (toggle_ignite igniteDB 1 ⟨3, 1⟩).1 1
        ⟨3, 1⟩).1.reward_points 2 = getPoints igniteDB.reward_points 2 ∧
    (toggle_ignite (toggle_ignite igniteDB 1 ⟨3, 1⟩).1 1 ⟨3, 1⟩).1.posts =
      igniteDB.posts :=
  c6_ignite_round_trip igniteDB 1 ⟨3, 1⟩ ⟨1, 2, 1, 0⟩ (by decide) (by decide)
    (by decide) (by decide) (by decide)

/-- Quantity of product `pid` already in the caller's cart (0 when the cart
or the row does not exist), read exactly the way `add_to_cart` reads it. -/
def existingQty (db : DB) (cu : User) (pid : Nat) : Int :=
  match findCartItem (get_or_create_cart db cu).1.cart_items
      (get_or_create_cart db cu).2.id pid with
  | some i => i.quantity
  | none => 0

/-- C10 counterexample: product 10 has stock 3 and per-user cap 10, the cart
already holds quantity 2, and the user requests 2 more.  The claimed
acceptance condition `quantity ≤ min(stock, max − existing)` holds
(2 ≤ min 3 8), yet the code rejects with an insufficient-stock error because
it checks `existing + quantity ≤ stock`. -/
theorem c10_counterexample :
    (2 : Int) ≤ min 3 (10 - 2) ∧
    existingQty staleCartDB ⟨1, 1⟩ 10 = 2 ∧
    (add_to_cart staleCartDB ⟨1, 1⟩ 10 2).2 = .error .InsufficientStock ∧
    (add_to_cart staleCartDB ⟨1, 1⟩ 10 2).1 = staleCartDB := by
  decide

/-- C10 (amended): for an ACTIVE product of the caller's college whose
existing cart quantity is non-negative, `add_to_cart` accepts exactly when
`existing_cart_quantity + quantity ≤ min(stock_quantity,
max_quantity_per_user)`, and in all cases leaves products, balances, the
user ledger and the pools unchanged — stock is only checked, never
decremented, before checkout. -/
theorem c10_add_to_cart_spec (db : DB) (cu : User) (pid : Nat) (q : Int)
    (p : Product)
    (hp : findActiveProduct db.products pid cu.college_id = some p)
    (he : 0 ≤ existingQty db cu pid) :
    ((add_to_cart db cu pid q).2 = .ok () ↔
      existingQty db cu pid + q ≤ min p.stock_quantity p.max_quantity_per_user) ∧
    (add_to_cart db cu pid q).1.products = db.products ∧
    (add_to_cart db cu pid q).1.reward_points = db.reward_points ∧
    (add_to_cart db cu pid q).1.point_transactions = db.point_transactions ∧
    (add_to_cart db cu pid q).1.pools = db.pools := by
  obtain ⟨hf1, hf2, hf3, hf4, hf5⟩ := get_or_create_cart_fields db cu
  rcases hitem : findCartItem (get_or_create_cart db cu).1.cart_items
      (get_or_create_cart db cu).2.id pid with _ | item
  · have he0 : existingQty db cu pid = 0 := by
      unfold existingQty
      rw [hitem]
    by_cases h1 : p.stock_quantity < q
    · simp only [add_to_cart, hp, if_pos h1]
      refine ⟨?_, by trivial, by trivial, by trivial, by trivial⟩
      constructor
      · intro hc
        exact absurd hc (by simp)
      · intro hc
        rw [he0] at hc
        omega
    · by_cases h2 : q > p.max_quantity_per_user
      · simp only [add_to_cart, hp, if_neg h1, if_pos h2]
        refine ⟨?_, by trivial, by trivial, by trivial, by trivial⟩
        constructor
        · intro hc
          exact absurd hc (by simp)
        · intro hc
          rw [he0] at hc
          omega
      · simp only [add_to_cart, hp, if_neg h1, if_neg h2, hitem]
        refine ⟨?_, hf4, hf1, hf2, hf3⟩
        constructor
        · intro _
          rw [he0]
          omega
        · intro _
          trivial
  · have heq : existingQty db cu pid = item.quantity := by
      unfold existingQty
      rw [hitem]
    rw [heq] at he ⊢
    by_cases h1 : p.stock_quantity < q
    · simp only [add_to_cart, hp, if_pos h1]
      refine ⟨?_, by trivial, by trivial, by trivial, by trivial⟩
      constructor
      · intro hc
        exact absurd hc (by simp)
      · intro hc
        omega
    · by_cases h2 : q > p.max_quantity_per_user
      · simp only [add_to_cart, hp, if_neg h1, if_pos h2]
        refine ⟨?_, by trivial, by trivial, by trivial, by trivial⟩
        constructor
        · intro hc
          exact absurd hc (by simp)
        · intro hc
          omega
      · by_cases h3 : item.quantity + q > p.max_quantity_per_user
        · simp only [add_to_cart, hp, if_neg h1, if_neg h2, hitem, if_pos h3]
          refine ⟨?_, hf4, hf1, hf2, hf3⟩
          constructor
          · intro hc
            exact absurd hc (by simp)
          · intro hc
            omega
        · by_cases h4 : item.quantity + q > p.stock_quantity
          · simp only [add_to_cart, hp, if_neg h1, if_neg h2, hitem, if_neg h3,
              if_pos h4]
            refine ⟨?_, hf4, hf1, hf2, hf3⟩
            constructor
            · intro hc
              exact absurd hc (by simp)
            · intro hc
              omega
          · simp only [add_to_cart, hp, if_neg h1, if_neg h2, hitem, if_neg h3,
              if_neg h4]
            refine ⟨?_, hf4, hf1, hf2, hf3⟩
            constructor
            · intro _
              omega
            · intro _
              trivial

/-- C10 witness: adding 1 more unit (2 in cart, stock 3, cap 10) is accepted
and touches neither stock nor balances. -/
theorem c10_add_to_cart_spec_witness :
    ((add_to_cart staleCartDB ⟨1, 1⟩ 10 1).2 = .ok () ↔
      existingQty staleCartDB ⟨1, 1⟩ 10 + 1 ≤ min 3 10) ∧
    (add_to_cart staleCartDB ⟨1, 1⟩ 10 1).1.products = staleCartDB.products ∧
    (add_to_cart staleCartDB ⟨1, 1⟩ 10 1).1.reward_points =
      staleCartDB.reward_points ∧
    (add_to_cart staleCartDB ⟨1, 1⟩ 10 1).1.point_transactions =
      staleCartDB.point_transactions ∧
    (add_to_cart staleCartDB ⟨1, 1⟩ 10 1).1.pools = staleCartDB.pools :=
  c10_add_to_cart_spec staleCartDB ⟨1, 1⟩ 10 1 ⟨10, "Widget", 50, 3, 10, .ACTIVE, 1⟩
    (by decide) (by decide)

end CollegeApi
